import Mathlib

set_option maxRecDepth 4096

namespace GenPass

/-- A deterministic stream of raw random draws together with a cursor.
This models the `Rng` handed to `generate_password`: each primitive request
for randomness reads the next value of the stream. Quantifying over all
streams quantifies over all randomness sources. -/
structure RandSource where
  stream : Nat → Nat
  pos : Nat

/-- Consume one raw random value from the source. -/
def stepRand (r : RandSource) : Nat × RandSource :=
  (r.stream r.pos, ⟨r.stream, r.pos + 1⟩)

/-- Embeds `const LETTERS: &[u8] = b"abcdefghijklmnopqrstuvwxyz";` as byte values. -/
def LETTERS : List Nat :=
  [97, 98, 99, 100, 101, 102, 103, 104, 105, 106, 107, 108, 109,
   110, 111, 112, 113, 114, 115, 116, 117, 118, 119, 120, 121, 122]

/-- Embeds `const NUMBERS: &[u8] = b"0123456789";` as byte values. -/
def NUMBERS : List Nat := [48, 49, 50, 51, 52, 53, 54, 55, 56, 57]

/-- Embeds `const SYMBOLS: &[u8] = b"!#$%&()*+";` as byte values. -/
def SYMBOLS : List Nat := [33, 35, 36, 37, 38, 40, 41, 42, 43]

/-- The nine symbol characters, as characters; used to state the spec-level
alphabet-membership properties. -/
def SYMBOL_CHARS : List Char := ['!', '#', '$', '%', '&', '(', ')', '*', '+']

/-- Embeds `slice.choose(rng)` from the `rand` crate: `None` on an empty
slice, otherwise a uniformly drawn element (here: the next stream value
reduced modulo the length). -/
def chooseByte (l : List Nat) (r : RandSource) : Option Nat × RandSource :=
  if l.isEmpty then (none, r)
  else
    let (n, r') := stepRand r
    (l.get? (n % l.length), r')

/-- Embeds `u8::to_ascii_uppercase`: maps a lowercase ASCII letter byte to
its uppercase counterpart, and leaves every other byte unchanged. -/
def to_ascii_uppercase (b : Nat) : Nat :=
  if 97 ≤ b ∧ b ≤ 122 then b - 32 else b

/-- Embeds one `for _ in 0..count { generated.push(tf(*ALPHA.choose(rng).unwrap())) }`
loop: draws `n` bytes from `alphabet`, applying `tf` to each, in draw order.
A failing `unwrap` (a draw from an empty slice) is modelled as `none`. -/
def drawN (alphabet : List Nat) (tf : Nat → Nat) : Nat → RandSource → Option (List Nat × RandSource)
  | 0, r => some ([], r)
  | Nat.succ n, r =>
    match chooseByte alphabet r with
    | (none, _) => none
    | (some b, r') =>
      match drawN alphabet tf n r' with
      | none => none
      | some (bs, r'') => some (tf b :: bs, r'')

/-- Swap the entries at positions `i` and `j` of a list (identity when either
index is out of range), as `slice::swap` does on in-range indices. -/
def swapList {α : Type} (l : List α) (i j : Nat) : List α :=
  match l.get? i, l.get? j with
  | some a, some b => (l.set i b).set j a
  | _, _ => l

/-- Embeds the Fisher–Yates loop of `slice.shuffle(rng)` from the `rand`
crate: for `i` from `len-1` down to `1`, swap position `i` with a random
position in `0..=i`. The argument counts the remaining iterations. -/
def fyLoop {α : Type} : Nat → List α → RandSource → List α × RandSource
  | 0, l, r => (l, r)
  | Nat.succ i, l, r =>
    let (n, r') := stepRand r
    fyLoop i (swapList l (i + 1) (n % (i + 2))) r'

/-- Embeds `generated.shuffle(rng)`. -/
def shuffle {α : Type} (l : List α) (r : RandSource) : List α × RandSource :=
  fyLoop (l.length - 1) l r

/-- Embeds `String::from_utf8` on the ASCII fragment: an all-ASCII byte
vector decodes to the string of corresponding characters; any byte ≥ 128 is
mapped to `none`. On all-ASCII inputs (the only inputs this development
feeds it, as proved below) the full UTF-8 decoder agrees with this model. -/
def ascii_from_utf8 (bs : List Nat) : Option String :=
  if bs.all (fun b => b < 128) then some ⟨bs.map Char.ofNat⟩ else none

/-- The byte-gathering phase of `generate_password`: the four per-category
draw loops in source order (letters, uppercase, symbols, numbers) followed
by the shuffle. A Rust `for _ in 0..count` loop with an `i32` bound runs
`count.toNat` times (zero times for a negative bound). `none` models a
failing `unwrap` inside a loop body. -/
def generate_bytes (letters uppercase symbols numbers : Int) (r : RandSource) :
    Option (List Nat × RandSource) :=
  match drawN LETTERS id letters.toNat r with
  | none => none
  | some (l1, r1) =>
    match drawN LETTERS to_ascii_uppercase uppercase.toNat r1 with
    | none => none
    | some (l2, r2) =>
      match drawN SYMBOLS id symbols.toNat r2 with
      | none => none
      | some (l3, r3) =>
        match drawN NUMBERS id numbers.toNat r3 with
        | none => none
        | some (l4, r4) => some (shuffle (l1 ++ l2 ++ l3 ++ l4) r4)

/-- Embeds `fn generate_password(letters, uppercase, symbols, numbers, rng) -> String`:
gather and shuffle the bytes, then `String::from_utf8(generated).unwrap_or_default()`. -/
def generate_password (letters uppercase symbols numbers : Int) (r : RandSource) :
    Option String :=
  (generate_bytes letters uppercase symbols numbers r).map
    (fun p => (ascii_from_utf8 p.1).getD "")

/-- Criterion 1 of `check_password_strength`: `password.len() >= 10`
(Rust `str::len` counts UTF-8 bytes). -/
def length_criteria (password : String) : Bool :=
  password.utf8ByteSize ≥ 10

/-- Criterion 2: `password.chars().any(|ch| ch.is_ascii_uppercase())`. -/
def uppercase_criteria (password : String) : Bool :=
  password.data.any (fun ch => 65 ≤ ch.toNat && ch.toNat ≤ 90)

/-- Criterion 3: `password.chars().any(|ch| ch.is_ascii_lowercase())`. -/
def lowercase_criteria (password : String) : Bool :=
  password.data.any (fun ch => 97 ≤ ch.toNat && ch.toNat ≤ 122)

/-- Criterion 4: `password.chars().any(|ch| ch.is_ascii_digit())`. -/
def number_criteria (password : String) : Bool :=
  password.data.any (fun ch => 48 ≤ ch.toNat && ch.toNat ≤ 57)

/-- Criterion 5: `password.chars().any(|ch| SYMBOLS.contains(&(ch as u8)))`.
The Rust cast `ch as u8` truncates the character's code point to its low
eight bits, embedded here as reduction modulo 256. -/
def symbol_criteria (password : String) : Bool :=
  password.data.any (fun ch => SYMBOLS.contains (ch.toNat % 256))

/-- The count of satisfied criteria:
`[..].iter().filter(|&&c| c).count()` over the five criterion booleans. -/
def criteria_met (password : String) : Nat :=
  ([length_criteria password, uppercase_criteria password, lowercase_criteria password,
    number_criteria password, symbol_criteria password].filter id).length

/-- Embeds `fn check_password_strength(password: &str) -> &'static str`. -/
def check_password_strength (password : String) : String :=
  if criteria_met password = 5 then "Strong"
  else if criteria_met password ≥ 4 then "Moderate"
  else if criteria_met password ≥ 3 then "Weak"
  else "Do not use!!!!"

/-- All byte values `generate_bytes` can ever emit: the three alphabets plus
the uppercased letter alphabet. -/
def ALL_BYTES : List Nat :=
  LETTERS ++ LETTERS.map to_ascii_uppercase ++ SYMBOLS ++ NUMBERS

/-- A fixed randomness source (the all-zero stream), used to instantiate
universally quantified statements at a concrete input. -/
def zeroSource : RandSource := ⟨fun _ => 0, 0⟩

lemma chooseByte_spec (l : List Nat) (hl : l ≠ []) (r : RandSource) :
    ∃ b r', chooseByte l r = (some b, r') ∧ b ∈ l := by
  have hlen : 0 < l.length := List.length_pos.mpr hl
  have hmod : (stepRand r).1 % l.length < l.length := Nat.mod_lt _ hlen
  refine ⟨l.get ⟨(stepRand r).1 % l.length, hmod⟩, (stepRand r).2, ?_, List.get_mem ..⟩
  unfold chooseByte
  rw [if_neg (by simpa [List.isEmpty_iff] using hl)]
  show (l.get? ((stepRand r).1 % l.length), (stepRand r).2)
      = (some (l.get ⟨(stepRand r).1 % l.length, hmod⟩), (stepRand r).2)
  rw [List.get?_eq_get hmod]

lemma drawN_spec (alphabet : List Nat) (tf : Nat → Nat) (hl : alphabet ≠ []) :
    ∀ (n : Nat) (r : RandSource), ∃ bs r', drawN alphabet tf n r = some (bs, r') ∧
      bs.length = n ∧ ∀ b ∈ bs, b ∈ alphabet.map tf
  | 0, r => ⟨[], r, rfl, rfl, by simp⟩
  | Nat.succ n, r => by
    obtain ⟨b, r', hc, hb⟩ := chooseByte_spec alphabet hl r
    obtain ⟨bs, r'', hd, hlen, hmem⟩ := drawN_spec alphabet tf hl n r'
    refine ⟨tf b :: bs, r'', ?_, by simp [hlen], ?_⟩
    · simp only [drawN, hc, hd]
    · intro x hx
      rcases List.mem_cons.mp hx with h | h
      · exact h ▸ List.mem_map_of_mem tf hb
      · exact hmem x h

lemma swapList_length {α : Type} (l : List α) (i j : Nat) :
    (swapList l i j).length = l.length := by
  unfold swapList
  cases l.get? i <;> cases l.get? j <;> simp

lemma mem_of_mem_swapList {α : Type} {l : List α} {i j : Nat} {x : α}
    (h : x ∈ swapList l i j) : x ∈ l := by
  unfold swapList at h
  cases h1 : l.get? i with
  | none => rw [h1] at h; exact h
  | some a =>
    cases h2 : l.get? j with
    | none => rw [h1, h2] at h; exact h
    | some b =>
      rw [h1, h2] at h
      rcases List.mem_or_eq_of_mem_set h with h' | h'
      · rcases List.mem_or_eq_of_mem_set h' with h'' | h''
        · exact h''
        · exact h'' ▸ List.get?_mem h2
      · exact h' ▸ List.get?_mem h1

lemma fyLoop_length {α : Type} :
    ∀ (k : Nat) (l : List α) (r : RandSource), (fyLoop k l r).1.length = l.length
  | 0, _, _ => rfl
  | Nat.succ i, l, r => by
    show (fyLoop i (swapList l (i + 1) ((stepRand r).1 % (i + 2))) (stepRand r).2).1.length
        = l.length
    rw [fyLoop_length i, swapList_length]

lemma mem_of_mem_fyLoop {α : Type} :
    ∀ (k : Nat) (l : List α) (r : RandSource) (x : α), x ∈ (fyLoop k l r).1 → x ∈ l
  | 0, _, _, _, h => h
  | Nat.succ i, l, r, x, h => by
    have h' : x ∈ (fyLoop i (swapList l (i + 1) ((stepRand r).1 % (i + 2))) (stepRand r).2).1 := h
    exact mem_of_mem_swapList (mem_of_mem_fyLoop i _ _ x h')

lemma shuffle_length {α : Type} (l : List α) (r : RandSource) :
    (shuffle l r).1.length = l.length := fyLoop_length _ l r

lemma mem_of_mem_shuffle {α : Type} {l : List α} {r : RandSource} {x : α}
    (h : x ∈ (shuffle l r).1) : x ∈ l := mem_of_mem_fyLoop _ l r x h

lemma generate_bytes_spec (letters uppercase symbols numbers : Int) (r : RandSource) :
    ∃ bs r', generate_bytes letters uppercase symbols numbers r = some (bs, r') ∧
      bs.length = letters.toNat + uppercase.toNat + symbols.toNat + numbers.toNat ∧
      ∀ b ∈ bs, b ∈ ALL_BYTES := by
  obtain ⟨l1, r1, h1, hl1, hm1⟩ :=
    drawN_spec LETTERS id (by decide) letters.toNat r
  obtain ⟨l2, r2, h2, hl2, hm2⟩ :=
    drawN_spec LETTERS to_ascii_uppercase (by decide) uppercase.toNat r1
  obtain ⟨l3, r3, h3, hl3, hm3⟩ :=
    drawN_spec SYMBOLS id (by decide) symbols.toNat r2
  obtain ⟨l4, r4, h4, hl4, hm4⟩ :=
    drawN_spec NUMBERS id (by decide) numbers.toNat r3
  refine ⟨(shuffle (l1 ++ l2 ++ l3 ++ l4) r4).1, (shuffle (l1 ++ l2 ++ l3 ++ l4) r4).2, ?_, ?_, ?_⟩
  · simp only [generate_bytes, h1, h2, h3, h4]
  · rw [shuffle_length]
    simp only [List.length_append, hl1, hl2, hl3, hl4]
  · intro b hb
    have hb' := mem_of_mem_shuffle hb
    unfold ALL_BYTES
    simp only [List.append_assoc, List.mem_append] at hb' ⊢
    rcases hb' with h | h | h | h
    · exact Or.inl (by simpa using hm1 b h)
    · exact Or.inr (Or.inl (hm2 b h))
    · exact Or.inr (Or.inr (Or.inl (by simpa using hm3 b h)))
    · exact Or.inr (Or.inr (Or.inr (by simpa using hm4 b h)))

lemma all_bytes_ascii : ∀ b ∈ ALL_BYTES, b < 128 := by decide

lemma ascii_from_utf8_of_ascii (bs : List Nat) (h : ∀ b ∈ bs, b < 128) :
    ascii_from_utf8 bs = some ⟨bs.map Char.ofNat⟩ := by
  unfold ascii_from_utf8
  rw [if_pos (List.all_eq_true.mpr fun b hb => decide_eq_true (h b hb))]

lemma generate_password_spec (letters uppercase symbols numbers : Int) (r : RandSource) :
    ∃ bs r', generate_bytes letters uppercase symbols numbers r = some (bs, r') ∧
      generate_password letters uppercase symbols numbers r = some ⟨bs.map Char.ofNat⟩ ∧
      bs.length = letters.toNat + uppercase.toNat + symbols.toNat + numbers.toNat ∧
      ∀ b ∈ bs, b ∈ ALL_BYTES := by
  obtain ⟨bs, r', hgb, hlen, hmem⟩ := generate_bytes_spec letters uppercase symbols numbers r
  refine ⟨bs, r', hgb, ?_, hlen, hmem⟩
  simp only [generate_password, hgb, Option.map_some']
  rw [ascii_from_utf8_of_ascii bs fun b hb => all_bytes_ascii b (hmem b hb)]
  rfl

/-- C1: for non-negative counts and any randomness source the generated
password has length exactly `letters + uppercase + symbols + numbers`; with
all four counts zero the result is the empty string. -/
theorem generate_password_length (letters uppercase symbols numbers : Int) (r : RandSource)
    (h1 : 0 ≤ letters) (h2 : 0 ≤ uppercase) (h3 : 0 ≤ symbols) (h4 : 0 ≤ numbers) :
    (generate_password letters uppercase symbols numbers r).map String.length
        = some (letters + uppercase + symbols + numbers).toNat ∧
    generate_password 0 0 0 0 r = some "" := by
  obtain ⟨bs, r', _, hgp, hlen, _⟩ := generate_password_spec letters uppercase symbols numbers r
  constructor
  · rw [hgp, Option.map_some']
    have hstr : (⟨bs.map Char.ofNat⟩ : String).length = bs.length := by
      simp [String.length]
    rw [hstr, show bs.length = (letters + uppercase + symbols + numbers).toNat by omega]
  · rfl

/-- C1 witness: the theorem instantiated at counts 6, 2, 2, 4 and the
all-zero randomness source. -/
theorem generate_password_length_witness :
    (generate_password 6 2 2 4 zeroSource).map String.length = some ((6 + 2 + 2 + 4 : Int)).toNat ∧
    generate_password 0 0 0 0 zeroSource = some "" :=
  generate_password_length 6 2 2 4 zeroSource (by decide) (by decide) (by decide) (by decide)

lemma all_bytes_char : ∀ b ∈ ALL_BYTES,
    ('a' ≤ Char.ofNat b ∧ Char.ofNat b ≤ 'z') ∨ ('A' ≤ Char.ofNat b ∧ Char.ofNat b ≤ 'Z')
      ∨ ('0' ≤ Char.ofNat b ∧ Char.ofNat b ≤ '9') ∨ Char.ofNat b ∈ SYMBOL_CHARS := by
  decide

/-- C3: every character of a generated password belongs to one of the four
fixed alphabets: lowercase letters, uppercase letters, digits, or the
nine-symbol set. -/
theorem generate_password_alphabet (letters uppercase symbols numbers : Int)
    (r : RandSource) (s : String)
    (h1 : 0 ≤ letters) (h2 : 0 ≤ uppercase) (h3 : 0 ≤ symbols) (h4 : 0 ≤ numbers)
    (hgen : generate_password letters uppercase symbols numbers r = some s) :
    ∀ c ∈ s.data, ('a' ≤ c ∧ c ≤ 'z') ∨ ('A' ≤ c ∧ c ≤ 'Z') ∨ ('0' ≤ c ∧ c ≤ '9')
      ∨ c ∈ SYMBOL_CHARS := by
  obtain ⟨bs, r', _, hgp, _, hmem⟩ := generate_password_spec letters uppercase symbols numbers r
  rw [hgp] at hgen
  obtain rfl : (⟨bs.map Char.ofNat⟩ : String) = s := Option.some.inj hgen
  intro c hc
  have hc' : c ∈ bs.map Char.ofNat := hc
  obtain ⟨b, hb, rfl⟩ := List.mem_map.mp hc'
  exact all_bytes_char b (hmem b hb)

/-- C3 witness: the theorem instantiated at counts 1, 1, 1, 1 and the
all-zero randomness source, which generates the password "A!0a". -/
theorem generate_password_alphabet_witness :
    (0 : Int) ≤ 1 ∧ generate_password 1 1 1 1 zeroSource = some "A!0a" ∧
    ∀ c ∈ ("A!0a" : String).data,
      ('a' ≤ c ∧ c ≤ 'z') ∨ ('A' ≤ c ∧ c ≤ 'Z') ∨ ('0' ≤ c ∧ c ≤ '9') ∨ c ∈ SYMBOL_CHARS :=
  ⟨by decide, by decide,
    generate_password_alphabet 1 1 1 1 zeroSource "A!0a"
      (by decide) (by decide) (by decide) (by decide) (by decide)⟩

/-- C9: the generator is total and never hits a failing `unwrap`: every
per-category draw succeeds (the alphabets are non-empty constants), the
final UTF-8 conversion succeeds (every generated byte is ASCII), and a
negative count contributes nothing — the result coincides with the one for
the count replaced by 0. -/
theorem generate_password_total (letters uppercase symbols numbers : Int) (r : RandSource) :
    (∃ s, generate_password letters uppercase symbols numbers r = some s) ∧
    (∀ bs r', generate_bytes letters uppercase symbols numbers r = some (bs, r') →
      (ascii_from_utf8 bs).isSome = true) ∧
    generate_password letters uppercase symbols numbers r
      = generate_password (max letters 0) (max uppercase 0) (max symbols 0) (max numbers 0) r := by
  obtain ⟨bs, r', hgb, hgp, _, hmem⟩ := generate_password_spec letters uppercase symbols numbers r
  refine ⟨⟨_, hgp⟩, ?_, ?_⟩
  · intro bs' r'' h
    rw [hgb] at h
    cases Option.some.inj h
    rw [ascii_from_utf8_of_ascii bs fun b hb => all_bytes_ascii b (hmem b hb)]
    rfl
  · have e1 : (max letters 0).toNat = letters.toNat := by omega
    have e2 : (max uppercase 0).toNat = uppercase.toNat := by omega
    have e3 : (max symbols 0).toNat = symbols.toNat := by omega
    have e4 : (max numbers 0).toNat = numbers.toNat := by omega
    unfold generate_password generate_bytes
    rw [e1, e2, e3, e4]

/-- C9 witness: the theorem instantiated at a negative letters count and the
all-zero randomness source; the inner hypothesis is discharged at the
concrete byte list produced there. -/
theorem generate_password_total_witness :
    (∃ s, generate_password (-1) 1 1 1 zeroSource = some s) ∧
    (ascii_from_utf8 [33, 48, 65]).isSome = true ∧
    generate_password (-1) 1 1 1 zeroSource
      = generate_password (max (-1) 0) (max 1 0) (max 1 0) (max 1 0) zeroSource :=
  ⟨(generate_password_total (-1) 1 1 1 zeroSource).1,
   (generate_password_total (-1) 1 1 1 zeroSource).2.1 [33, 48, 65] ⟨fun _ => 0, 5⟩ (by rfl),
   (generate_password_total (-1) 1 1 1 zeroSource).2.2⟩

/-- C2 counterexample: on the input "aaaa" at most two criteria are met, yet
the returned label is not "Do not use" (it is "Do not use!!!!"), so the
result is not among the four labels the claim lists. -/
theorem check_password_strength_label_cex :
    criteria_met "aaaa" ≤ 2 ∧ check_password_strength "aaaa" ≠ "Do not use" ∧
    check_password_strength "aaaa" ∉ (["Strong", "Moderate", "Weak", "Do not use"] : List String) := by
  decide

/-- C2 (amended): the result is one of the four labels Strong, Moderate,
Weak, "Do not use!!!!"; five criteria met yields Strong, four Moderate,
three Weak, and at most two yields "Do not use!!!!". -/
theorem check_password_strength_mapping (password : String) :
    (check_password_strength password = "Strong" ∨ check_password_strength password = "Moderate"
      ∨ check_password_strength password = "Weak"
      ∨ check_password_strength password = "Do not use!!!!") ∧
    (criteria_met password = 5 → check_password_strength password = "Strong") ∧
    (criteria_met password = 4 → check_password_strength password = "Moderate") ∧
    (criteria_met password = 3 → check_password_strength password = "Weak") ∧
    (criteria_met password ≤ 2 → check_password_strength password = "Do not use!!!!") := by
  unfold check_password_strength
  refine ⟨?_, ?_, ?_, ?_, ?_⟩
  · split_ifs <;> simp
  all_goals intro h
  all_goals split_ifs with h1 h2 h3 <;> first | rfl | omega

/-- C2 witness: the amended mapping applied at the all-criteria input
"Aa1!aaaaaa", which scores five and is labelled Strong. -/
theorem check_password_strength_mapping_witness :
    criteria_met "Aa1!aaaaaa" = 5 ∧ check_password_strength "Aa1!aaaaaa" = "Strong" :=
  ⟨by decide, (check_password_strength_mapping "Aa1!aaaaaa").2.1 (by decide)⟩

lemma symbol_chars_eq : SYMBOL_CHARS = SYMBOLS.map Char.ofNat := by decide

lemma symbols_toNat_ofNat : ∀ b ∈ SYMBOLS, (Char.ofNat b).toNat = b := by decide

lemma mem_symbol_chars_iff (c : Char) : c ∈ SYMBOL_CHARS ↔ c.toNat ∈ SYMBOLS := by
  rw [symbol_chars_eq]
  constructor
  · intro h
    obtain ⟨b, hb, rfl⟩ := List.mem_map.mp h
    rw [symbols_toNat_ofNat b hb]
    exact hb
  · intro h
    exact Char.ofNat_toNat c ▸ List.mem_map_of_mem Char.ofNat h

/-- C4 counterexample: the one-character string "ġ" (U+0121, whose code
point reduced modulo 256 is 33, the byte of the symbol character) satisfies
the fifth criterion although none of its characters belongs to the
nine-symbol alphabet. -/
theorem symbol_criteria_cex :
    symbol_criteria "ġ" = true ∧
    ("ġ".data.all fun c => !(SYMBOL_CHARS.contains c)) = true := by
  decide

/-- C4 (amended): the fifth criterion holds iff some character's code point
reduced modulo 256 is the byte value of one of the nine symbols; on strings
made of ASCII characters this coincides with containing a character of the
nine-symbol alphabet. -/
theorem symbol_criteria_spec (password : String) :
    (symbol_criteria password = true ↔ ∃ c ∈ password.data, c.toNat % 256 ∈ SYMBOLS) ∧
    ((∀ c ∈ password.data, c.toNat < 128) →
      (symbol_criteria password = true ↔ ∃ c ∈ password.data, c ∈ SYMBOL_CHARS)) := by
  have base : symbol_criteria password = true ↔ ∃ c ∈ password.data, c.toNat % 256 ∈ SYMBOLS := by
    unfold symbol_criteria
    rw [List.any_eq_true]
    constructor
    · rintro ⟨c, hc, h⟩
      exact ⟨c, hc, by simpa using h⟩
    · rintro ⟨c, hc, h⟩
      exact ⟨c, hc, by simpa using h⟩
  refine ⟨base, fun hascii => base.trans ?_⟩
  constructor
  · rintro ⟨c, hc, h⟩
    refine ⟨c, hc, (mem_symbol_chars_iff c).mpr ?_⟩
    rwa [Nat.mod_eq_of_lt (lt_trans (hascii c hc) (by norm_num))] at h
  · rintro ⟨c, hc, h⟩
    refine ⟨c, hc, ?_⟩
    rw [Nat.mod_eq_of_lt (lt_trans (hascii c hc) (by norm_num))]
    exact (mem_symbol_chars_iff c).mp h

/-- C4 witness: the amended equivalence applied at the ASCII string "a!". -/
theorem symbol_criteria_spec_witness :
    (∀ c ∈ ("a!" : String).data, c.toNat < 128) ∧
    (symbol_criteria "a!" = true ↔ ∃ c ∈ ("a!" : String).data, c ∈ SYMBOL_CHARS) :=
  ⟨by decide, (symbol_criteria_spec "a!").2 (by decide)⟩

/-- Embeds `const MIN_VALUE: i32 = 0;`. -/
def MIN_VALUE : Int := 0

/-- Embeds `const MAX_VALUE: i32 = 64;`. -/
def MAX_VALUE : Int := 64

/-- Embeds `const DEFAULT_LETTERS: i32 = 6;`. -/
def DEFAULT_LETTERS : Int := 6

/-- Embeds `const DEFAULT_UPPERCASE: i32 = 2;`. -/
def DEFAULT_UPPERCASE : Int := 2

/-- Embeds `const DEFAULT_SYMBOLS: i32 = 2;`. -/
def DEFAULT_SYMBOLS : Int := 2

/-- Embeds `const DEFAULT_NUMBERS: i32 = 4;`. -/
def DEFAULT_NUMBERS : Int := 4

/-- Embeds `const CLIPBOARD_MESSAGE_DURATION: Duration = Duration::from_secs(2);`
with time measured in seconds. -/
def CLIPBOARD_MESSAGE_DURATION : Nat := 2

/-- Embeds `const FOCUS_FIELDS: usize = 4;`. -/
def FOCUS_FIELDS : Nat := 4

/-- Embeds `const FOCUS_GENERATE: usize = 4;`. -/
def FOCUS_GENERATE : Nat := 4

/-- Embeds `const FOCUS_COPY: usize = 5;`. -/
def FOCUS_COPY : Nat := 5

/-- Embeds `const FOCUS_QUIT: usize = 6;`. -/
def FOCUS_QUIT : Nat := 6

/-- Embeds `struct App`. `Instant` is modelled as a natural number of
seconds; `String` fields stay strings. -/
structure App where
  letters : Int
  uppercase : Int
  symbols : Int
  numbers : Int
  focus : Nat
  password : String
  strength : String
  status : String
  status_until : Option Nat

/-- Embeds `App::clamp_value`: `value.clamp(MIN_VALUE, MAX_VALUE)`. -/
def clamp_value (value : Int) : Int :=
  if value < MIN_VALUE then MIN_VALUE
  else if value > MAX_VALUE then MAX_VALUE
  else value

/-- Embeds `App::update_value`: adjust the count selected by the focus,
re-clamped; a no-op on any other focus. -/
def App.update_value (a : App) (delta : Int) : App :=
  match a.focus with
  | 0 => { a with letters := clamp_value (a.letters + delta) }
  | 1 => { a with uppercase := clamp_value (a.uppercase + delta) }
  | 2 => { a with symbols := clamp_value (a.symbols + delta) }
  | 3 => { a with numbers := clamp_value (a.numbers + delta) }
  | _ => a

/-- Embeds the stateful `App::generate_password`: regenerate the password
from the current counts with a fresh randomness source and recompute the
strength label. The `getD ""` default is unreachable:
`generate_password_total` proves the generator never returns `none`. -/
def App.generate_password (a : App) (r : RandSource) : App :=
  let p := (GenPass.generate_password a.letters a.uppercase a.symbols a.numbers r).getD ""
  { a with password := p, strength := check_password_strength p }

/-- Embeds `App::clear_status_if_expired` at an observed current time. -/
def App.clear_status_if_expired (a : App) (now : Nat) : App :=
  match a.status_until with
  | some deadline =>
    if now ≥ deadline then { a with status := "", status_until := none } else a
  | none => a

/-- Embeds `App::new`: default counts, focus 0, empty status, then one
initial regeneration. -/
def App.new (r : RandSource) : App :=
  App.generate_password
    { letters := DEFAULT_LETTERS, uppercase := DEFAULT_UPPERCASE,
      symbols := DEFAULT_SYMBOLS, numbers := DEFAULT_NUMBERS, focus := 0,
      password := "", strength := "", status := "", status_until := none } r

/-- The decoded press events the `run_app` match distinguishes: quit keys
(`q`, Esc), up (`Up`, `k`), down (`Down`, `j`), left (`Left`, `-`, `h`),
right (`Right`, `+`, `=`, `l`), confirm (`g`, Enter), the clipboard keys
(`c`, `C`), Ctrl-`r`, and anything else. -/
inductive KeyEvt where
  | quitKey
  | up
  | down
  | left
  | right
  | confirm
  | copyKey
  | ctrlR
  | other
deriving DecidableEq

/-- The status update both clipboard paths of `run_app` perform after
calling `copy_to_clipboard`: the success or failure message, expiring
`CLIPBOARD_MESSAGE_DURATION` after the current time. -/
def set_clip_status (a : App) (clip : Bool) (now : Nat) : App :=
  { a with
    status := if clip then "Copied to clipboard." else "Clipboard unavailable.",
    status_until := some (now + CLIPBOARD_MESSAGE_DURATION) }

/-- Embeds the key-handling `match` of `run_app`. `none` is the terminal
transition (`return Ok(())`); `clip` is the outcome reported by the
clipboard collaborator, `r` the fresh randomness source a regeneration
uses, and `now` the time observed during handling. -/
def handle_key (a : App) (e : KeyEvt) (clip : Bool) (r : RandSource) (now : Nat) : Option App :=
  match e with
  | KeyEvt.quitKey => none
  | KeyEvt.up => some { a with focus := a.focus - 1 }
  | KeyEvt.down => some { a with focus := min (a.focus + 1) FOCUS_QUIT }
  | KeyEvt.left => some (a.update_value (-1))
  | KeyEvt.right => some (a.update_value 1)
  | KeyEvt.confirm =>
    if a.focus ≥ FOCUS_FIELDS then
      if a.focus = FOCUS_GENERATE then some (a.generate_password r)
      else if a.focus = FOCUS_COPY then some (set_clip_status a clip now)
      else if a.focus = FOCUS_QUIT then none
      else some a
    else some (a.generate_password r)
  | KeyEvt.copyKey => some (set_clip_status a clip now)
  | KeyEvt.ctrlR => some (a.generate_password r)
  | KeyEvt.other => some a

/-- The per-iteration environment of the `run_app` loop: the time observed
by the expiry check, the polled event (`none` on poll timeout or a
non-press event), the clipboard outcome, the randomness source, and the
time observed during key handling. -/
structure IterEnv where
  now1 : Nat
  event : Option KeyEvt
  clip : Bool
  rand : RandSource
  now2 : Nat

/-- One iteration of the `run_app` loop: render (stateless), clear an
expired status, then handle the polled event, if any. -/
def step_iter (a : App) (env : IterEnv) : Option App :=
  let a1 := a.clear_status_if_expired env.now1
  match env.event with
  | none => some a1
  | some e => handle_key a1 e env.clip env.rand env.now2

/-- Run the loop through a finite list of iteration environments. -/
def run_iters : App → List IterEnv → Option App
  | a, [] => some a
  | a, env :: rest =>
    match step_iter a env with
    | none => none
    | some a' => run_iters a' rest

/-- Session states reachable from startup by some finite run of the loop. -/
def Reachable (a : App) : Prop :=
  ∃ (r0 : RandSource) (envs : List IterEnv), run_iters (App.new r0) envs = some a

/-- The controller invariant: the four counts lie in `[0, 64]` and the
focus lies in `[0, 6]`. -/
def AppInv (a : App) : Prop :=
  0 ≤ a.letters ∧ a.letters ≤ 64 ∧ 0 ≤ a.uppercase ∧ a.uppercase ≤ 64 ∧
  0 ≤ a.symbols ∧ a.symbols ≤ 64 ∧ 0 ≤ a.numbers ∧ a.numbers ≤ 64 ∧
  a.focus ≤ 6

lemma clamp_value_mem (v : Int) : 0 ≤ clamp_value v ∧ clamp_value v ≤ 64 := by
  unfold clamp_value MIN_VALUE MAX_VALUE
  split_ifs <;> omega

lemma update_value_frame (a : App) (d : Int) :
    (a.update_value d).focus = a.focus ∧ (a.update_value d).password = a.password ∧
    (a.update_value d).strength = a.strength ∧ (a.update_value d).status = a.status ∧
    (a.update_value d).status_until = a.status_until := by
  unfold App.update_value
  split <;> exact ⟨rfl, rfl, rfl, rfl, rfl⟩

lemma update_value_inv (a : App) (d : Int) (h : AppInv a) : AppInv (a.update_value d) := by
  obtain ⟨h1, h2, h3, h4, h5, h6, h7, h8, h9⟩ := h
  unfold App.update_value
  split <;>
    refine ⟨?_, ?_, ?_, ?_, ?_, ?_, ?_, ?_, ?_⟩ <;>
      first
        | exact (clamp_value_mem _).1
        | exact (clamp_value_mem _).2
        | assumption

lemma clear_of_none (a : App) (now : Nat) (h : a.status_until = none) :
    a.clear_status_if_expired now = a := by
  simp [App.clear_status_if_expired, h]

lemma clear_frame (a : App) (now : Nat) :
    (a.clear_status_if_expired now).letters = a.letters ∧
    (a.clear_status_if_expired now).uppercase = a.uppercase ∧
    (a.clear_status_if_expired now).symbols = a.symbols ∧
    (a.clear_status_if_expired now).numbers = a.numbers ∧
    (a.clear_status_if_expired now).focus = a.focus ∧
    (a.clear_status_if_expired now).password = a.password ∧
    (a.clear_status_if_expired now).strength = a.strength := by
  cases hsu : a.status_until with
  | none => rw [clear_of_none a now hsu]; exact ⟨rfl, rfl, rfl, rfl, rfl, rfl, rfl⟩
  | some d =>
    simp only [App.clear_status_if_expired, hsu]
    split_ifs <;> exact ⟨rfl, rfl, rfl, rfl, rfl, rfl, rfl⟩

lemma clear_inv (a : App) (now : Nat) (h : AppInv a) :
    AppInv (a.clear_status_if_expired now) := by
  obtain ⟨e1, e2, e3, e4, e5, e6, e7⟩ := clear_frame a now
  obtain ⟨h1, h2, h3, h4, h5, h6, h7, h8, h9⟩ := h
  exact ⟨e1 ▸ h1, e1 ▸ h2, e2 ▸ h3, e2 ▸ h4, e3 ▸ h5, e3 ▸ h6, e4 ▸ h7, e4 ▸ h8, e5 ▸ h9⟩

lemma handle_key_inv (a : App) (e : KeyEvt) (clip : Bool) (r : RandSource) (now : Nat)
    (h : AppInv a) : ∀ a', handle_key a e clip r now = some a' → AppInv a' := by
  obtain ⟨h1, h2, h3, h4, h5, h6, h7, h8, h9⟩ := h
  intro a' ha'
  cases e with
  | quitKey => exact Option.noConfusion ha'
  | up =>
    cases Option.some.inj ha'
    exact ⟨h1, h2, h3, h4, h5, h6, h7, h8, by show a.focus - 1 ≤ 6; omega⟩
  | down =>
    cases Option.some.inj ha'
    exact ⟨h1, h2, h3, h4, h5, h6, h7, h8, by
      show min (a.focus + 1) FOCUS_QUIT ≤ 6
      simp only [FOCUS_QUIT]
      omega⟩
  | left =>
    cases Option.some.inj ha'
    exact update_value_inv a _ ⟨h1, h2, h3, h4, h5, h6, h7, h8, h9⟩
  | right =>
    cases Option.some.inj ha'
    exact update_value_inv a _ ⟨h1, h2, h3, h4, h5, h6, h7, h8, h9⟩
  | confirm =>
    simp only [handle_key] at ha'
    split_ifs at ha' <;>
      first
        | exact Option.noConfusion ha'
        | (cases Option.some.inj ha'; exact ⟨h1, h2, h3, h4, h5, h6, h7, h8, h9⟩)
  | copyKey =>
    cases Option.some.inj ha'
    exact ⟨h1, h2, h3, h4, h5, h6, h7, h8, h9⟩
  | ctrlR =>
    cases Option.some.inj ha'
    exact ⟨h1, h2, h3, h4, h5, h6, h7, h8, h9⟩
  | other =>
    cases Option.some.inj ha'
    exact ⟨h1, h2, h3, h4, h5, h6, h7, h8, h9⟩

lemma step_iter_inv (a : App) (env : IterEnv) (h : AppInv a) :
    ∀ a', step_iter a env = some a' → AppInv a' := by
  intro a' ha'
  unfold step_iter at ha'
  have hc := clear_inv a env.now1 h
  cases he : env.event with
  | none => rw [he] at ha'; cases Option.some.inj ha'; exact hc
  | some e => rw [he] at ha'; exact handle_key_inv _ e env.clip env.rand env.now2 hc a' ha'

lemma run_iters_inv : ∀ (envs : List IterEnv) (a a' : App), AppInv a →
    run_iters a envs = some a' → AppInv a'
  | [], a, a', h, he => (Option.some.inj he) ▸ h
  | env :: rest, a, a', h, he => by
    unfold run_iters at he
    cases hs : step_iter a env with
    | none => rw [hs] at he; exact Option.noConfusion he
    | some a1 =>
      rw [hs] at he
      exact run_iters_inv rest a1 a' (step_iter_inv a env h a1 hs) he

lemma new_inv (r : RandSource) : AppInv (App.new r) :=
  ⟨(by decide : (0 : Int) ≤ 6), (by decide : (6 : Int) ≤ 64),
   (by decide : (0 : Int) ≤ 2), (by decide : (2 : Int) ≤ 64),
   (by decide : (0 : Int) ≤ 2), (by decide : (2 : Int) ≤ 64),
   (by decide : (0 : Int) ≤ 4), (by decide : (4 : Int) ≤ 64),
   (by decide : (0 : Nat) ≤ 6)⟩

lemma reachable_inv (a : App) (h : Reachable a) : AppInv a := by
  obtain ⟨r0, envs, he⟩ := h
  exact run_iters_inv envs (App.new r0) a (new_inv r0) he

/-- C5: in every session state reachable from the defaults by any sequence
of input events, each of the four category counts lies in `[0, 64]`; and an
increment or decrement is a no-op when the focus is on an action
(`focus ≥ FOCUS_FIELDS`). -/
theorem counts_clamped :
    (∀ a : App, Reachable a →
      (0 ≤ a.letters ∧ a.letters ≤ 64) ∧ (0 ≤ a.uppercase ∧ a.uppercase ≤ 64) ∧
      (0 ≤ a.symbols ∧ a.symbols ≤ 64) ∧ (0 ≤ a.numbers ∧ a.numbers ≤ 64)) ∧
    (∀ (a : App) (delta : Int), FOCUS_FIELDS ≤ a.focus → a.update_value delta = a) := by
  constructor
  · intro a ha
    obtain ⟨h1, h2, h3, h4, h5, h6, h7, h8, _⟩ := reachable_inv a ha
    exact ⟨⟨h1, h2⟩, ⟨h3, h4⟩, ⟨h5, h6⟩, ⟨h7, h8⟩⟩
  · intro a delta hfoc
    obtain ⟨n, hn⟩ : ∃ n, a.focus = n + 4 :=
      ⟨a.focus - 4, by simp only [FOCUS_FIELDS] at hfoc; omega⟩
    unfold App.update_value
    rw [hn]
    rfl

/-- C5 witness: the counts of the freshly started session are in range, and
an increment at the Generate focus (index 4) changes nothing. -/
theorem counts_clamped_witness :
    ((0 ≤ (App.new zeroSource).letters ∧ (App.new zeroSource).letters ≤ 64) ∧
     (0 ≤ (App.new zeroSource).uppercase ∧ (App.new zeroSource).uppercase ≤ 64) ∧
     (0 ≤ (App.new zeroSource).symbols ∧ (App.new zeroSource).symbols ≤ 64) ∧
     (0 ≤ (App.new zeroSource).numbers ∧ (App.new zeroSource).numbers ≤ 64)) ∧
    (App.mk 6 2 2 4 4 "" "" "" none).update_value 1 = App.mk 6 2 2 4 4 "" "" "" none :=
  ⟨counts_clamped.1 (App.new zeroSource) ⟨zeroSource, [], rfl⟩,
   counts_clamped.2 (App.mk 6 2 2 4 4 "" "" "" none) 1 (by decide)⟩

/-- C6: in every reachable session state the focus lies in `[0, 6]`; an up
event replaces the focus by `focus - 1` with saturating (truncated)
subtraction, that is `max (focus - 1) 0`, and a down event replaces it by
`min (focus + 1) 6`. -/
theorem focus_clamped :
    (∀ a : App, Reachable a → a.focus ≤ 6) ∧
    (∀ (a : App) (clip : Bool) (r : RandSource) (now : Nat),
      handle_key a KeyEvt.up clip r now = some { a with focus := a.focus - 1 } ∧
      handle_key a KeyEvt.down clip r now
        = some { a with focus := min (a.focus + 1) FOCUS_QUIT }) := by
  constructor
  · intro a ha
    exact (reachable_inv a ha).2.2.2.2.2.2.2.2
  · intro a clip r now
    exact ⟨rfl, rfl⟩

/-- C6 witness: the fresh session's focus is in range, and the up/down
equations hold at a concrete state with focus 3. -/
theorem focus_clamped_witness :
    (App.new zeroSource).focus ≤ 6 ∧
    handle_key (App.mk 6 2 2 4 3 "" "" "" none) KeyEvt.up true zeroSource 0
      = some (App.mk 6 2 2 4 2 "" "" "" none) ∧
    handle_key (App.mk 6 2 2 4 3 "" "" "" none) KeyEvt.down true zeroSource 0
      = some (App.mk 6 2 2 4 4 "" "" "" none) :=
  ⟨focus_clamped.1 (App.new zeroSource) ⟨zeroSource, [], rfl⟩,
   (focus_clamped.2 (App.mk 6 2 2 4 3 "" "" "" none) true zeroSource 0).1,
   (focus_clamped.2 (App.mk 6 2 2 4 3 "" "" "" none) true zeroSource 0).2⟩

lemma handle_confirm_copy (a : App) (clip : Bool) (r : RandSource) (now : Nat)
    (h : a.focus = FOCUS_COPY) :
    handle_key a KeyEvt.confirm clip r now = some (set_clip_status a clip now) := by
  simp [handle_key, h, FOCUS_FIELDS, FOCUS_GENERATE, FOCUS_COPY]

/-- C7: both clipboard triggers — the `c`/`C` key at any focus, and confirm
at the CopyAction focus — continue the session with the status set to
exactly "Copied to clipboard." on success and exactly "Clipboard
unavailable." on failure, expiring two seconds after now; this holds for
both collaborator outcomes, so a failure is never fatal. -/
theorem clipboard_status (a : App) (clip : Bool) (r : RandSource) (now : Nat) :
    handle_key a KeyEvt.copyKey clip r now = some (set_clip_status a clip now) ∧
    (a.focus = FOCUS_COPY →
      handle_key a KeyEvt.confirm clip r now = some (set_clip_status a clip now)) ∧
    (set_clip_status a clip now).status
      = (if clip then "Copied to clipboard." else "Clipboard unavailable.") ∧
    (set_clip_status a clip now).status_until = some (now + CLIPBOARD_MESSAGE_DURATION) :=
  ⟨rfl, fun h => handle_confirm_copy a clip r now h, rfl, rfl⟩

/-- C7 witness: confirming at focus 5 with a failing clipboard yields the
unavailable message expiring at time 12, and the session continues. -/
theorem clipboard_status_witness :
    handle_key (App.mk 6 2 2 4 5 "pw" "st" "" none) KeyEvt.confirm false zeroSource 10
      = some (set_clip_status (App.mk 6 2 2 4 5 "pw" "st" "" none) false 10) ∧
    (set_clip_status (App.mk 6 2 2 4 5 "pw" "st" "" none) false 10).status
      = (if false then "Copied to clipboard." else "Clipboard unavailable.") ∧
    (set_clip_status (App.mk 6 2 2 4 5 "pw" "st" "" none) false 10).status_until
      = some (10 + CLIPBOARD_MESSAGE_DURATION) :=
  ⟨(clipboard_status (App.mk 6 2 2 4 5 "pw" "st" "" none) false zeroSource 10).2.1 rfl,
   (clipboard_status (App.mk 6 2 2 4 5 "pw" "st" "" none) false zeroSource 10).2.2.1,
   (clipboard_status (App.mk 6 2 2 4 5 "pw" "st" "" none) false zeroSource 10).2.2.2⟩

/-- C8: an active status with expiry `d` is untouched by the per-iteration
check while `now < d` and cleared (message emptied, expiry removed) as soon
as `now ≥ d`; a state with no expiry is untouched; and once cleared, a loop
iteration whose event is not a clipboard action (not `c`/`C`, and not
confirm at the CopyAction focus) leaves the message empty and the expiry
absent. -/
theorem status_lifecycle (a : App) (now d : Nat) :
    (a.status_until = some d → now < d → a.clear_status_if_expired now = a) ∧
    (a.status_until = some d → d ≤ now →
      (a.clear_status_if_expired now).status = "" ∧
      (a.clear_status_if_expired now).status_until = none) ∧
    (a.status_until = none → a.clear_status_if_expired now = a) ∧
    (∀ (env : IterEnv) (a' : App), a.status = "" → a.status_until = none →
      step_iter a env = some a' →
      env.event ≠ some KeyEvt.copyKey →
      ¬(env.event = some KeyEvt.confirm ∧ a.focus = FOCUS_COPY) →
      a'.status = "" ∧ a'.status_until = none) := by
  refine ⟨?_, ?_, fun h => clear_of_none a now h, ?_⟩
  · intro hsu hlt
    simp only [App.clear_status_if_expired, hsu]
    rw [if_neg (by omega)]
  · intro hsu hge
    simp only [App.clear_status_if_expired, hsu]
    rw [if_pos (by omega)]
    exact ⟨rfl, rfl⟩
  · intro env a' hst hsu hstep hne hnc
    unfold step_iter at hstep
    rw [clear_of_none a env.now1 hsu] at hstep
    cases he : env.event with
    | none =>
      rw [he] at hstep
      cases Option.some.inj hstep
      exact ⟨hst, hsu⟩
    | some e =>
      rw [he] at hstep
      cases e with
      | quitKey => exact Option.noConfusion hstep
      | up =>
        cases Option.some.inj hstep
        exact ⟨hst, hsu⟩
      | down =>
        cases Option.some.inj hstep
        exact ⟨hst, hsu⟩
      | left =>
        obtain ⟨-, -, -, hs, hsu'⟩ := update_value_frame a (-1)
        cases Option.some.inj hstep
        exact ⟨hs.trans hst, hsu'.trans hsu⟩
      | right =>
        obtain ⟨-, -, -, hs, hsu'⟩ := update_value_frame a 1
        cases Option.some.inj hstep
        exact ⟨hs.trans hst, hsu'.trans hsu⟩
      | confirm =>
        simp only [handle_key] at hstep
        by_cases h4 : a.focus ≥ FOCUS_FIELDS
        · rw [if_pos h4] at hstep
          by_cases hg : a.focus = FOCUS_GENERATE
          · rw [if_pos hg] at hstep
            cases Option.some.inj hstep
            exact ⟨hst, hsu⟩
          · rw [if_neg hg] at hstep
            by_cases hc : a.focus = FOCUS_COPY
            · exact absurd ⟨he, hc⟩ hnc
            · rw [if_neg hc] at hstep
              by_cases hq : a.focus = FOCUS_QUIT
              · rw [if_pos hq] at hstep
                exact Option.noConfusion hstep
              · rw [if_neg hq] at hstep
                cases Option.some.inj hstep
                exact ⟨hst, hsu⟩
        · rw [if_neg h4] at hstep
          cases Option.some.inj hstep
          exact ⟨hst, hsu⟩
      | copyKey => exact absurd he hne
      | ctrlR =>
        cases Option.some.inj hstep
        exact ⟨hst, hsu⟩
      | other =>
        cases Option.some.inj hstep
        exact ⟨hst, hsu⟩

/-- C8 witness: a status expiring at time 5 is untouched at time 3 and
cleared at time 7; a cleared state stays cleared through an iteration whose
event is a plain down key. -/
theorem status_lifecycle_witness :
    (App.mk 6 2 2 4 0 "p" "s" "Copied to clipboard." (some 5)).clear_status_if_expired 3
      = App.mk 6 2 2 4 0 "p" "s" "Copied to clipboard." (some 5) ∧
    ((App.mk 6 2 2 4 0 "p" "s" "Copied to clipboard." (some 5)).clear_status_if_expired 7).status
      = "" ∧
    ((App.mk 6 2 2 4 0 "p" "s" "Copied to clipboard." (some 5)).clear_status_if_expired
        7).status_until = none ∧
    ((App.mk 6 2 2 4 0 "p" "s" "" none).clear_status_if_expired 9).status = "" := by
  refine ⟨(status_lifecycle (App.mk 6 2 2 4 0 "p" "s" "Copied to clipboard." (some 5)) 3 5).1
      rfl (by decide),
    ((status_lifecycle (App.mk 6 2 2 4 0 "p" "s" "Copied to clipboard." (some 5)) 7 5).2.1
      rfl (by decide)).1,
    ((status_lifecycle (App.mk 6 2 2 4 0 "p" "s" "Copied to clipboard." (some 5)) 7 5).2.1
      rfl (by decide)).2,
    (status_lifecycle (App.mk 6 2 2 4 0 "p" "s" "" none) 9 9).2.2.2
      { now1 := 9, event := some KeyEvt.down, clip := true, rand := zeroSource, now2 := 9 }
      (App.mk 6 2 2 4 1 "p" "s" "" none) rfl rfl rfl (by decide) (by decide) |>.1⟩

/-- C10: a clipboard action — the `c`/`C` key at any focus, or confirm at
the CopyAction focus — produces exactly `set_clip_status`, which changes
only the status message and its expiry: the four counts, the focus, the
password and the strength label are unchanged, whatever the collaborator
outcome. -/
theorem clipboard_frame (a : App) (clip : Bool) (r : RandSource) (now : Nat) :
    handle_key a KeyEvt.copyKey clip r now = some (set_clip_status a clip now) ∧
    (a.focus = FOCUS_COPY →
      handle_key a KeyEvt.confirm clip r now = some (set_clip_status a clip now)) ∧
    (set_clip_status a clip now).letters = a.letters ∧
    (set_clip_status a clip now).uppercase = a.uppercase ∧
    (set_clip_status a clip now).symbols = a.symbols ∧
    (set_clip_status a clip now).numbers = a.numbers ∧
    (set_clip_status a clip now).focus = a.focus ∧
    (set_clip_status a clip now).password = a.password ∧
    (set_clip_status a clip now).strength = a.strength :=
  ⟨rfl, fun h => handle_confirm_copy a clip r now h, rfl, rfl, rfl, rfl, rfl, rfl, rfl⟩

/-- C10 witness: the frame conditions at a concrete state with focus 5, for
the failing collaborator outcome. -/
theorem clipboard_frame_witness :
    handle_key (App.mk 1 2 3 4 5 "pw" "Weak" "" none) KeyEvt.confirm false zeroSource 10
      = some (set_clip_status (App.mk 1 2 3 4 5 "pw" "Weak" "" none) false 10) ∧
    (set_clip_status (App.mk 1 2 3 4 5 "pw" "Weak" "" none) false 10).letters = 1 ∧
    (set_clip_status (App.mk 1 2 3 4 5 "pw" "Weak" "" none) false 10).focus = 5 ∧
    (set_clip_status (App.mk 1 2 3 4 5 "pw" "Weak" "" none) false 10).password = "pw" :=
  ⟨(clipboard_frame (App.mk 1 2 3 4 5 "pw" "Weak" "" none) false zeroSource 10).2.1 rfl,
   (clipboard_frame (App.mk 1 2 3 4 5 "pw" "Weak" "" none) false zeroSource 10).2.2.1,
   (clipboard_frame (App.mk 1 2 3 4 5 "pw" "Weak" "" none) false zeroSource 10).2.2.2.2.2.2.1,
   (clipboard_frame (App.mk 1 2 3 4 5 "pw" "Weak" "" none) false zeroSource 10).2.2.2.2.2.2.2.1⟩

end GenPass
